import Mathlib

/-
Shallow embedding of the document/history engine of the drag-and-drop
website builder (src/src/App.tsx).  Machine numbers are modelled as Int
(all arithmetic in the embedded code is small-integer: list lengths and
a fixed +20 offset), JS strings as String, optional record fields as
Option, and JS `undefined`/missing results as `none`.
-/

namespace DragDrop

/-- The style sub-record of an element (interface ElementStyle,
App.tsx lines 24-36).  Every key is optional; a missing key in JS is an
absent property, modelled as `none`. -/
structure ElementStyle where
  backgroundColor : Option String := none
  color : Option String := none
  fontSize : Option String := none
  fontWeight : Option String := none
  padding : Option String := none
  margin : Option String := none
  borderRadius : Option String := none
  border : Option String := none
  width : Option String := none
  height : Option String := none
  textAlign : Option String := none
deriving DecidableEq

/-- A canvas position (the `position: \x7bx, y\x7d` field of Element). -/
structure Pos where
  x : Int
  y : Int
deriving DecidableEq

/-- An element size (the `size: \x7bwidth, height\x7d` field of Element). -/
structure Size where
  width : Int
  height : Int
deriving DecidableEq

/-- One placed element (interface Element, App.tsx lines 38-49).  The
source declares `type` as a six-string union, but `handleDrop` casts an
arbitrary string into it (`draggedElement.type as Element["type"]`), so
at runtime the field is just a string; it is modelled as String. -/
structure Element where
  defaultContent : String
  id : String
  type : String
  content : String
  style : ElementStyle
  position : Pos
  size : Size
  locked : Bool
  visible : Bool
  zIndex : Int
deriving DecidableEq

/-- A document snapshot (interface HistoryState, App.tsx lines 51-54):
the element list plus the current selection.  This is also the spec's
"Document". -/
structure HistoryState where
  elements : List Element
  selectedElementId : Option String
deriving DecidableEq

/-- The state of the useHistory hook (App.tsx lines 57-59): the snapshot
log and the cursor. -/
structure History where
  log : List HistoryState
  currentIndex : Nat
deriving DecidableEq

/-- pushState (App.tsx lines 61-69): truncate the log to `[0..cursor]`
(`history.slice(0, currentIndex + 1)`), append the new snapshot, and move
the cursor to the new last index. -/
def pushState (h : History) (s : HistoryState) : History :=
  let newHistory := h.log.take (h.currentIndex + 1) ++ [s]
  { log := newHistory, currentIndex := newHistory.length - 1 }

/-- undo (App.tsx lines 71-77): if the cursor is positive, decrement it
and return the snapshot now under it; otherwise return null (`none`) and
leave the state alone.  The returned value is paired with the new hook
state. -/
def undo (h : History) : Option HistoryState × History :=
  if 0 < h.currentIndex then
    (h.log.get? (h.currentIndex - 1), { h with currentIndex := h.currentIndex - 1 })
  else
    (none, h)

/-- redo (App.tsx lines 79-85): if the cursor is before the last index,
increment it and return the snapshot now under it; otherwise return null
(`none`) and leave the state alone. -/
def redo (h : History) : Option HistoryState × History :=
  if h.currentIndex < h.log.length - 1 then
    (h.log.get? (h.currentIndex + 1), { h with currentIndex := h.currentIndex + 1 })
  else
    (none, h)

/-- The document in effect at a history state: `history[currentIndex]`
(the `currentState` value of the hook, App.tsx line 96). -/
def currentState (h : History) : Option HistoryState :=
  h.log.get? h.currentIndex

/-- A partial element update (TypeScript `Partial<Element>`): every field
optional; a field present in the partial (`some`) overrides the element's
field under the spread `\x7b...el, ...updates\x7d`. -/
structure PartialElement where
  defaultContent : Option String := none
  id : Option String := none
  type : Option String := none
  content : Option String := none
  style : Option ElementStyle := none
  position : Option Pos := none
  size : Option Size := none
  locked : Option Bool := none
  visible : Option Bool := none
  zIndex : Option Int := none
deriving DecidableEq

/-- The JS object spread `\x7b...el, ...updates\x7d` of App.tsx line 232:
each field present in `updates` replaces the element's field wholesale
(including `style`, which is replaced as one value, and `id`). -/
def applyPartial (el : Element) (u : PartialElement) : Element :=
  { defaultContent := u.defaultContent.getD el.defaultContent
    id := u.id.getD el.id
    type := u.type.getD el.type
    content := u.content.getD el.content
    style := u.style.getD el.style
    position := u.position.getD el.position
    size := u.size.getD el.size
    locked := u.locked.getD el.locked
    visible := u.visible.getD el.visible
    zIndex := u.zIndex.getD el.zIndex }

/-- updateElement (App.tsx lines 229-242):
`prev.map(el => el.id === id ? \x7b ...el, ...updates \x7d : el)`.
The selection is not touched. -/
def updateElement (doc : HistoryState) (i : String) (u : PartialElement) : HistoryState :=
  { doc with elements := doc.elements.map fun el => if el.id = i then applyPartial el u else el }

/-- deleteElement (App.tsx lines 244-260):
`prev.filter(el => el.id !== id)`, clearing the selection when the deleted
element was selected. -/
def deleteElement (doc : HistoryState) (i : String) : HistoryState :=
  { elements := doc.elements.filter fun el => el.id != i
    selectedElementId := if doc.selectedElementId = some i then none else doc.selectedElementId }

/-- duplicateElement (App.tsx lines 262-283): look the element up with
`elements.find(el => el.id === id)`; when found, append a spread copy with
a freshly generated id (passed here as `newId`, standing for the
`generateId()` result), position offset by (20, 20) and
`zIndex: elements.length`, and select the clone; when absent, do nothing. -/
def duplicateElement (doc : HistoryState) (i : String) (newId : String) : HistoryState :=
  match doc.elements.find? (fun el => el.id == i) with
  | none => doc
  | some el =>
      { elements := doc.elements ++
          [{ el with
              id := newId
              position := ⟨el.position.x + 20, el.position.y + 20⟩
              zIndex := (doc.elements.length : Int) }]
        selectedElementId := some newId }

/-- getDefaultStyle (App.tsx lines 128-173): the canonical default style
record per kind; `baseStyles[type] || \x7b\x7d` yields the empty record
for any unrecognized kind. -/
def getDefaultStyle (type : String) : ElementStyle :=
  if type = "heading" then
    { fontSize := some "32px", fontWeight := some "bold", color := some "#1f2937"
      margin := some "16px 0", textAlign := some "left" }
  else if type = "text" then
    { fontSize := some "16px", color := some "#374151", margin := some "8px 0"
      textAlign := some "left" }
  else if type = "button" then
    { backgroundColor := some "#3b82f6", color := some "white", padding := some "12px 24px"
      borderRadius := some "8px", fontSize := some "16px", fontWeight := some "500"
      border := some "none" }
  else if type = "image" then
    { borderRadius := some "8px", width := some "300px", height := some "200px" }
  else if type = "container" then
    { backgroundColor := some "#f9fafb", padding := some "24px", borderRadius := some "8px"
      border := some "2px dashed #d1d5db", width := some "400px", height := some "200px" }
  else if type = "divider" then
    { backgroundColor := some "#e5e7eb", height := some "2px", width := some "100%"
      margin := some "16px 0" }
  else
    {}

/-- The six kinds of the component library (App.tsx lines 101-123), i.e.
the recognized variants of the spec. -/
def recognizedKinds : List String :=
  ["heading", "text", "button", "image", "container", "divider"]

/-- The library-item branch of handleDrop (App.tsx lines 305-323), which
is the spec's `create`: append a new element with the library item's
default content, the kind's default style, `size \x7bwidth: 200,
height: 50\x7d`, `locked: false`, `visible: true`,
`zIndex: elements.length`, and select it.  `newId` stands for the
`generateId()` result; no validation of the kind happens anywhere on this
path. -/
def createElement (doc : HistoryState) (type defaultContent : String) (pos : Pos)
    (newId : String) : HistoryState :=
  let newElement : Element :=
    { id := newId
      type := type
      content := defaultContent
      style := getDefaultStyle type
      position := pos
      size := ⟨200, 50⟩
      locked := false
      visible := true
      zIndex := (doc.elements.length : Int)
      defaultContent := defaultContent }
  { elements := doc.elements ++ [newElement], selectedElementId := some newId }

/-- The initial document (App.tsx line 190). -/
def emptyDocument : HistoryState := ⟨[], none⟩

/-- The list of element ids of a document. -/
def ids (doc : HistoryState) : List String :=
  doc.elements.map (·.id)

/-- The camel-case-to-kebab translation of exportCode (App.tsx line 364):
`key.replace(/([A-Z])/g, "-$1").toLowerCase()` — every upper-case letter
becomes a hyphen followed by its lower-case form. -/
def camelToKebab (s : String) : String :=
  String.mk (s.data.foldr (fun c acc => if c.isUpper then '-' :: c.toLower :: acc else c :: acc) [])

/-- The `Object.entries(el.style)` of exportCode (App.tsx line 361): the
present keys of the style record with their values.  JS enumerates object
keys in insertion order; the model fixes the interface declaration order
(no claim depends on the within-rule key order). -/
def styleEntries (s : ElementStyle) : List (String × String) :=
  ([("backgroundColor", s.backgroundColor), ("color", s.color), ("fontSize", s.fontSize),
    ("fontWeight", s.fontWeight), ("padding", s.padding), ("margin", s.margin),
    ("borderRadius", s.borderRadius), ("border", s.border), ("width", s.width),
    ("height", s.height), ("textAlign", s.textAlign)]).filterMap
    fun kv => kv.2.map fun v => (kv.1, v)

/-- The per-element style rule of exportCode (App.tsx lines 355-368): a
`.element-ID` class with absolute position, left/top, z-index, and the
style entries rendered as `key: value;` joined by single spaces. -/
def cssRule (el : Element) : String :=
  "\n        .element-" ++ el.id ++ " \x7b\n            position: absolute;\n            left: "
    ++ toString el.position.x ++ "px;\n            top: " ++ toString el.position.y
    ++ "px;\n            z-index: " ++ toString el.zIndex ++ ";\n            "
    ++ String.intercalate " "
        ((styleEntries el.style).map fun kv => camelToKebab kv.1 ++ ": " ++ kv.2 ++ ";")
    ++ "\n        \x7d\n        "

/-- The per-element markup tag of exportCode (App.tsx lines 376-393): the
switch over `el.type`; the element's `content` is interpolated directly
into the template literal, and the default branch yields the empty
string. -/
def elementMarkup (el : Element) : String :=
  match el.type with
  | "heading" => "<h1 class=\"element-" ++ el.id ++ "\">" ++ el.content ++ "</h1>"
  | "text" => "<p class=\"element-" ++ el.id ++ "\">" ++ el.content ++ "</p>"
  | "button" => "<button class=\"element-" ++ el.id ++ "\">" ++ el.content ++ "</button>"
  | "image" => "<img class=\"element-" ++ el.id ++ "\" src=\"" ++ el.content ++ "\" alt=\"Image\" />"
  | "container" => "<div class=\"element-" ++ el.id ++ "\"></div>"
  | "divider" => "<hr class=\"element-" ++ el.id ++ "\" />"
  | _ => ""

/-- The style section of exportCode: `elements.map(...).join("")`
(App.tsx lines 353-370), one rule per element in list order. -/
def exportStyles (doc : HistoryState) : String :=
  String.join (doc.elements.map cssRule)

/-- The body section of exportCode: `elements.map(...).join("")`
(App.tsx lines 375-394), one tag per element in list order. -/
def exportBody (doc : HistoryState) : String :=
  String.join (doc.elements.map elementMarkup)

/-- The exportCode template (App.tsx lines 342-397): the full standalone
document string, with the style rules and the element markup interpolated
into the fixed head/body shell. -/
def exportCode (doc : HistoryState) : String :=
  "\n<!DOCTYPE html>\n<html lang=\"en\">\n<head>\n    <meta charset=\"UTF-8\">\n    <meta name=\"viewport\" content=\"width=device-width, initial-scale=1.0\">\n    <title>Generated Website</title>\n    <style>\n        * \x7b margin: 0; padding: 0; box-sizing: border-box; \x7d\n        body \x7b font-family: -apple-system, BlinkMacSystemFont, \x27Segoe UI\x27, Roboto, sans-serif; \x7d\n        .container \x7b position: relative; min-height: 100vh; \x7d\n        "
    ++ exportStyles doc
    ++ "\n    </style>\n</head>\n<body>\n    <div class=\"container\">\n        "
    ++ exportBody doc
    ++ "\n    </div>\n</body>\n</html>"

/-- One Document Store operation.  The fresh ids that `generateId()`
produces at run time are parameters of the `create` and `duplicate`
operations. -/
inductive Op where
  | create (newId type defaultContent : String) (pos : Pos)
  | update (i : String) (u : PartialElement)
  | delete (i : String)
  | duplicate (i newId : String)
deriving DecidableEq

/-- Apply one operation to a document. -/
def applyOp (doc : HistoryState) : Op → HistoryState
  | .create newId type defaultContent pos => createElement doc type defaultContent pos newId
  | .update i u => updateElement doc i u
  | .delete i => deleteElement doc i
  | .duplicate i newId => duplicateElement doc i newId

/-- Apply a sequence of operations from left to right. -/
def applyOps (doc : HistoryState) : List Op → HistoryState
  | [] => doc
  | op :: ops => applyOps (applyOp doc op) ops

/-- The freshness assumption on generated ids: along the run, the id
supplied to each `create` or `duplicate` is not already an element id of
the document the operation is applied to. -/
def freshOk (doc : HistoryState) : List Op → Bool
  | [] => true
  | op :: ops =>
      (match op with
       | .create newId _ _ _ => !(ids doc).contains newId
       | .duplicate _ newId => !(ids doc).contains newId
       | _ => true) && freshOk (applyOp doc op) ops

/-- Whether no update partial in the sequence sets the `id` field. -/
def noIdUpdates : List Op → Bool
  | [] => true
  | .update _ u :: ops => u.id.isNone && noIdUpdates ops
  | _ :: ops => noIdUpdates ops

/-- A stable ascending sort by zIndex, insertion written out so that
elements with equal zIndex keep their relative order.  This definition
follows the spec's words ("in ascending zIndex then insertion order for
ties") for comparison with the order the exporter actually emits; the
source has no such sort. -/
def insertByZ (a : Element) : List Element → List Element
  | [] => [a]
  | b :: l => if b.zIndex ≤ a.zIndex then b :: insertByZ a l else a :: b :: l

/-- The zIndex-sorted element sequence the spec describes; see
`insertByZ`. -/
def sortByZ : List Element → List Element
  | [] => []
  | a :: l => insertByZ a (sortByZ l)

/-- HTML escaping of text content.  This definition follows the spec's
words ("the content field, HTML-escaped") for comparison with the markup
the exporter actually emits; the source performs no escaping. -/
def specHtmlEscape (s : String) : String :=
  String.join (s.data.map fun c =>
    if c = '&' then "&amp;"
    else if c = '<' then "&lt;"
    else if c = '>' then "&gt;"
    else if c = '"' then "&quot;"
    else String.mk [c])

/-- Key-level style merging.  This definition follows the spec's words
("keys present in the partial's style overwrite the element's
corresponding keys, and every style key absent from the partial's style
keeps its previous value") for comparison with the wholesale replacement
the source performs. -/
def specMergeStyle (old new : ElementStyle) : ElementStyle :=
  { backgroundColor := new.backgroundColor <|> old.backgroundColor
    color := new.color <|> old.color
    fontSize := new.fontSize <|> old.fontSize
    fontWeight := new.fontWeight <|> old.fontWeight
    padding := new.padding <|> old.padding
    margin := new.margin <|> old.margin
    borderRadius := new.borderRadius <|> old.borderRadius
    border := new.border <|> old.border
    width := new.width <|> old.width
    height := new.height <|> old.height
    textAlign := new.textAlign <|> old.textAlign }

/-! Helper lemmas shared by several claims. -/

/-- The image of an element of the document under updateElement at the
element's own id is its partially-updated form. -/
lemma applyPartial_mem_updateElement (doc : HistoryState) (el : Element) (u : PartialElement)
    (hmem : el ∈ doc.elements) :
    applyPartial el u ∈ (updateElement doc el.id u).elements := by
  have h1 := List.mem_map_of_mem (fun e => if e.id = el.id then applyPartial e u else e) hmem
  simpa [updateElement] using h1

/-! Claim theorems. -/

/-- C1: for every history state and every document T, undo() followed by
push(T) truncates the log to the entries up to and including the
post-undo cursor before appending T, moves the cursor to the new last
index, and makes a subsequent redo() return none. -/
theorem push_after_undo_discards_redo (h : History) (T : HistoryState) :
    (pushState (undo h).2 T).log = (undo h).2.log.take ((undo h).2.currentIndex + 1) ++ [T] ∧
    (pushState (undo h).2 T).currentIndex = (pushState (undo h).2 T).log.length - 1 ∧
    (redo (pushState (undo h).2 T)).1 = none := by
  refine ⟨rfl, rfl, ?_⟩
  simp [pushState, redo]

/-- C2 counterexample: at cursor 0 the undo is a no-op, so its cursor can
still sit strictly before the log's end, yet the subsequent redo moves
forward and returns a document different from the one current before the
undo. -/
theorem redo_after_noop_undo_moves_forward :
    (undo ⟨[⟨[], none⟩, ⟨[], some "x"⟩], 0⟩).2.currentIndex <
      (undo ⟨[⟨[], none⟩, ⟨[], some "x"⟩], 0⟩).2.log.length - 1 ∧
    (redo (undo ⟨[⟨[], none⟩, ⟨[], some "x"⟩], 0⟩).2).1 ≠
      currentState ⟨[⟨[], none⟩, ⟨[], some "x"⟩], 0⟩ := by
  decide

/-- C2 amended: whenever the cursor is positive (so the undo actually
moves it) and is a valid log index, redo() immediately after undo()
returns exactly the document that was current before the undo. -/
theorem redo_after_undo_restores (h : History) (h0 : 0 < h.currentIndex)
    (hlen : h.currentIndex < h.log.length) :
    (redo (undo h).2).1 = currentState h := by
  have hc : h.currentIndex - 1 + 1 = h.currentIndex := Nat.sub_add_cancel h0
  simp only [undo, if_pos h0]
  simp only [redo]
  rw [if_pos (by omega : h.currentIndex - 1 < h.log.length - 1)]
  simp [currentState, hc]

/-- C2 witness: a concrete two-entry history at cursor 1. -/
theorem redo_after_undo_restores_witness :
    (redo (undo ⟨[⟨[], none⟩, ⟨[], some "x"⟩], 1⟩).2).1 =
      currentState ⟨[⟨[], none⟩, ⟨[], some "x"⟩], 1⟩ :=
  redo_after_undo_restores ⟨[⟨[], none⟩, ⟨[], some "x"⟩], 1⟩ (by decide) (by decide)

/-- A concrete element used by the C3 counterexample and witness. -/
def exElemC3 : Element :=
  { defaultContent := "d", id := "e", type := "text", content := "c"
    style := { color := some "red", fontSize := some "16px" }
    position := ⟨0, 0⟩, size := ⟨200, 50⟩, locked := false, visible := true, zIndex := 0 }

/-- A concrete partial whose style sets only the color key, used by the
C3 counterexample and witness. -/
def exPartC3 : PartialElement := { style := some { color := some "blue" } }

/-- C3 counterexample: updating with a partial whose style sets only
`color` leaves the element with exactly that one-key style record — the
previous `fontSize` is dropped, not kept, so update does not merge styles
at the key level. -/
theorem update_style_not_key_merged :
    ((updateElement ⟨[exElemC3], none⟩ "e" exPartC3).elements.map (·.style)) =
      [{ color := some "blue" }] ∧
    ((updateElement ⟨[exElemC3], none⟩ "e" exPartC3).elements.map (·.style)) ≠
      [specMergeStyle exElemC3.style { color := some "blue" }] := by
  decide

/-- C3 amended: update(id, partial) with a style present in the partial
replaces the matched element's style record wholesale with the partial's
style; keys absent from the partial's style are unset in the result
rather than preserved. -/
theorem update_style_replaced_wholesale (doc : HistoryState) (el : Element)
    (u : PartialElement) (s : ElementStyle) (hmem : el ∈ doc.elements)
    (hs : u.style = some s) :
    applyPartial el u ∈ (updateElement doc el.id u).elements ∧
    (applyPartial el u).style = s := by
  exact ⟨applyPartial_mem_updateElement doc el u hmem, by simp [applyPartial, hs]⟩

/-- C3 witness: the concrete element and one-key style partial. -/
theorem update_style_replaced_wholesale_witness :
    applyPartial exElemC3 exPartC3 ∈
      (updateElement ⟨[exElemC3], none⟩ exElemC3.id exPartC3).elements ∧
    (applyPartial exElemC3 exPartC3).style = { color := some "blue" } :=
  update_style_replaced_wholesale ⟨[exElemC3], none⟩ exElemC3 exPartC3
    { color := some "blue" } (List.mem_singleton_self _) rfl

/-- A concrete element used by the C9 witness. -/
def exElemC9 : Element :=
  { defaultContent := "d", id := "a", type := "text", content := "c"
    style := {}, position := ⟨0, 0⟩, size := ⟨200, 50⟩, locked := false, visible := true
    zIndex := 0 }

/-- C9: update on an id absent from the document is a no-op returning a
document equal to the input — elements and selection unchanged, and no
error is signaled (the operation is total). -/
theorem update_unknown_id_noop (doc : HistoryState) (i : String) (u : PartialElement)
    (h : i ∉ ids doc) :
    updateElement doc i u = doc := by
  obtain ⟨elements, sel⟩ := doc
  have hne : ∀ el ∈ elements, el.id ≠ i := by
    intro el hel he
    exact h (he ▸ List.mem_map_of_mem (·.id) hel)
  have hmap : ∀ l : List Element, (∀ el ∈ l, el.id ≠ i) →
      l.map (fun el => if el.id = i then applyPartial el u else el) = l := by
    intro l
    induction l with
    | nil => intro _; rfl
    | cons a t ih =>
        intro hl
        simp only [List.map_cons, if_neg (hl a (List.mem_cons_self a t))]
        rw [ih fun el hel => hl el (List.mem_cons_of_mem a hel)]
  simp [updateElement, hmap elements hne]

/-- C9 witness: a concrete document and an id not contained in it. -/
theorem update_unknown_id_noop_witness :
    updateElement ⟨[exElemC9], none⟩ "zz" { content := some "new" } = ⟨[exElemC9], none⟩ :=
  update_unknown_id_noop ⟨[exElemC9], none⟩ "zz" { content := some "new" } (by decide)

/-- A concrete element used by the C10 witness. -/
def exElemC10 : Element :=
  { defaultContent := "d", id := "a", type := "text", content := "c"
    style := {}, position := ⟨0, 0⟩, size := ⟨200, 50⟩, locked := false, visible := true
    zIndex := 0 }

/-- C10: update applies every field present in the partial to the matched
element — each field of the result is the partial's value when present
and the old value otherwise; in particular a partial carrying an id field
replaces the element's identifier, so update itself does not enforce id
immutability. -/
theorem update_applies_all_fields (doc : HistoryState) (el : Element) (u : PartialElement)
    (hmem : el ∈ doc.elements) :
    applyPartial el u ∈ (updateElement doc el.id u).elements ∧
    (applyPartial el u).id = u.id.getD el.id ∧
    (applyPartial el u).content = u.content.getD el.content ∧
    (applyPartial el u).style = u.style.getD el.style ∧
    (applyPartial el u).position = u.position.getD el.position ∧
    (applyPartial el u).locked = u.locked.getD el.locked ∧
    ∀ j, u.id = some j → (applyPartial el u).id = j := by
  refine ⟨applyPartial_mem_updateElement doc el u hmem, rfl, rfl, rfl, rfl, rfl, ?_⟩
  intro j hj
  simp [applyPartial, hj]

/-- C10 witness: a concrete element whose id is rewritten to "z" by an
update partial carrying an id field. -/
theorem update_applies_all_fields_witness :
    applyPartial exElemC10 { id := some "z" } ∈
      (updateElement ⟨[exElemC10], none⟩ exElemC10.id { id := some "z" }).elements ∧
    (applyPartial exElemC10 { id := some "z" }).id = "z" := by
  have h := update_applies_all_fields ⟨[exElemC10], none⟩ exElemC10 { id := some "z" }
    (List.mem_singleton_self _)
  exact ⟨h.1, h.2.2.2.2.2.2 "z" rfl⟩

/-- Uniqueness of ids is preserved along any operation run whose
generated ids are fresh and whose update partials never set `id`. -/
lemma nodup_ids_applyOps : ∀ (ops : List Op) (doc : HistoryState), (ids doc).Nodup →
    freshOk doc ops = true → noIdUpdates ops = true → (ids (applyOps doc ops)).Nodup := by
  intro ops
  induction ops with
  | nil => intro doc h _ _; simpa [applyOps] using h
  | cons op ops ih =>
      intro doc hnd hf hn
      simp only [applyOps]
      cases op with
      | create newId t dc pos =>
          simp only [freshOk, Bool.and_eq_true] at hf
          obtain ⟨hf1, hf2⟩ := hf
          have hnotin : newId ∉ ids doc := by simpa using hf1
          have hn2 : noIdUpdates ops = true := by simpa [noIdUpdates] using hn
          refine ih _ ?_ hf2 hn2
          have hids : ids (createElement doc t dc pos newId) = ids doc ++ [newId] := by
            simp [ids, createElement]
          simp [applyOp, hids, List.nodup_append, hnd, hnotin]
      | update i u =>
          simp only [freshOk, Bool.true_and] at hf
          simp only [noIdUpdates, Bool.and_eq_true] at hn
          obtain ⟨hn1, hn2⟩ := hn
          have hidnone : u.id = none := by simpa using hn1
          refine ih _ ?_ hf hn2
          have hids : ids (updateElement doc i u) = ids doc := by
            simp only [ids, updateElement, List.map_map]
            apply List.map_congr_left
            intro el _
            by_cases he : el.id = i
            · simp [Function.comp, he, applyPartial, hidnone]
            · simp [Function.comp, he]
          simpa [applyOp, hids] using hnd
      | delete i =>
          simp only [freshOk, Bool.true_and] at hf
          have hn2 : noIdUpdates ops = true := by simpa [noIdUpdates] using hn
          refine ih _ ?_ hf hn2
          have hsub : (ids (deleteElement doc i)).Sublist (ids doc) := by
            simp only [ids, deleteElement]
            exact List.Sublist.map _ (List.filter_sublist _)
          exact List.Nodup.sublist hsub hnd
      | duplicate i newId =>
          simp only [freshOk, Bool.and_eq_true] at hf
          obtain ⟨hf1, hf2⟩ := hf
          have hnotin : newId ∉ ids doc := by simpa using hf1
          have hn2 : noIdUpdates ops = true := by simpa [noIdUpdates] using hn
          refine ih _ ?_ hf2 hn2
          simp only [applyOp]
          cases hfind : doc.elements.find? (fun el => el.id == i) with
          | none => simpa [duplicateElement, hfind] using hnd
          | some el =>
              have hids : ids (duplicateElement doc i newId) = ids doc ++ [newId] := by
                simp [duplicateElement, hfind, ids]
              simp [hids, List.nodup_append, hnd, hnotin]

/-- The operation sequence of the C4 counterexample: two fresh creates,
then an update whose partial sets the id field to the other element's
id. -/
def exOpsC4 : List Op :=
  [.create "a" "heading" "Your Heading" ⟨0, 0⟩,
   .create "b" "heading" "Your Heading" ⟨0, 0⟩,
   .update "a" { id := some "b" }]

/-- C4 counterexample: starting from the empty document, a run of
create/update operations whose generated ids are all fresh still ends in
a document with two elements of id "b", because an update partial may
rewrite the matched element's id to an existing one. -/
theorem id_update_breaks_nodup :
    freshOk emptyDocument exOpsC4 = true ∧
    ids (applyOps emptyDocument exOpsC4) = ["b", "b"] ∧
    ¬ (ids (applyOps emptyDocument exOpsC4)).Nodup := by
  decide

/-- C4 amended: for every operation run from the empty document in which
each generated id is fresh and no update partial sets the id field, the
resulting element list never contains two entries with the same id. -/
theorem create_update_delete_duplicate_ids_nodup (ops : List Op)
    (hf : freshOk emptyDocument ops = true) (hn : noIdUpdates ops = true) :
    (ids (applyOps emptyDocument ops)).Nodup :=
  nodup_ids_applyOps ops emptyDocument (by simp [ids, emptyDocument]) hf hn

/-- The operation sequence of the C4 witness. -/
def exOpsC4w : List Op :=
  [.create "a" "heading" "Your Heading" ⟨0, 0⟩,
   .duplicate "a" "b",
   .update "a" { content := some "Hi" },
   .delete "b"]

/-- C4 witness: a concrete run with a create, a duplicate, an id-free
update and a delete. -/
theorem create_update_delete_duplicate_ids_nodup_witness :
    freshOk emptyDocument exOpsC4w = true ∧ noIdUpdates exOpsC4w = true ∧
    (ids (applyOps emptyDocument exOpsC4w)).Nodup :=
  ⟨by decide, by decide,
   create_update_delete_duplicate_ids_nodup exOpsC4w (by decide) (by decide)⟩

/-- C5: when the looked-up id is present, duplicate appends a clone whose
content, style, size, kind, locked and visible fields equal the source's,
whose id is the freshly generated one (distinct from every existing id),
whose position is the source's offset by (20, 20), whose zIndex equals
the clone's end-of-list position in the new list, and which becomes the
selection; when the id is absent, duplicate is a no-op. -/
theorem duplicate_clone_spec (doc : HistoryState) (i newId : String) :
    (∀ el, doc.elements.find? (fun e => e.id == i) = some el → newId ∉ ids doc →
      ∃ clone,
        (duplicateElement doc i newId).elements = doc.elements ++ [clone] ∧
        clone.content = el.content ∧ clone.style = el.style ∧ clone.size = el.size ∧
        clone.type = el.type ∧ clone.locked = el.locked ∧ clone.visible = el.visible ∧
        clone.id = newId ∧ (∀ j ∈ ids doc, clone.id ≠ j) ∧
        clone.position.x = el.position.x + 20 ∧ clone.position.y = el.position.y + 20 ∧
        clone.zIndex = ((duplicateElement doc i newId).elements.length : Int) - 1 ∧
        (duplicateElement doc i newId).selectedElementId = some clone.id) ∧
    (doc.elements.find? (fun e => e.id == i) = none → duplicateElement doc i newId = doc) := by
  constructor
  · intro el hfind hfresh
    refine ⟨{ el with
        id := newId
        position := ⟨el.position.x + 20, el.position.y + 20⟩
        zIndex := (doc.elements.length : Int) },
      ?_, rfl, rfl, rfl, rfl, rfl, rfl, rfl, ?_, rfl, rfl, ?_, ?_⟩
    · simp [duplicateElement, hfind]
    · intro j hj he
      have hne : newId = j := he
      exact hfresh (hne ▸ hj)
    · simp only [duplicateElement, hfind, List.length_append, List.length_cons,
        List.length_nil]
      push_cast
      ring
    · simp [duplicateElement, hfind]
  · intro hfind
    simp [duplicateElement, hfind]

/-- A concrete element used by the C5 witness. -/
def exElemC5 : Element :=
  { defaultContent := "d", id := "a", type := "button", content := "Click Me"
    style := { backgroundColor := some "#3b82f6" }, position := ⟨5, 7⟩, size := ⟨200, 50⟩
    locked := false, visible := true, zIndex := 0 }

/-- C5 witness: duplicating the single element of a concrete document. -/
theorem duplicate_clone_spec_witness :
    ∃ clone,
      (duplicateElement ⟨[exElemC5], none⟩ "a" "b").elements = [exElemC5] ++ [clone] ∧
      clone.content = exElemC5.content ∧ clone.style = exElemC5.style ∧
      clone.size = exElemC5.size ∧ clone.type = exElemC5.type ∧
      clone.locked = exElemC5.locked ∧ clone.visible = exElemC5.visible ∧
      clone.id = "b" ∧ (∀ j ∈ ids ⟨[exElemC5], none⟩, clone.id ≠ j) ∧
      clone.position.x = exElemC5.position.x + 20 ∧
      clone.position.y = exElemC5.position.y + 20 ∧
      clone.zIndex = ((duplicateElement ⟨[exElemC5], none⟩ "a" "b").elements.length : Int) - 1 ∧
      (duplicateElement ⟨[exElemC5], none⟩ "a" "b").selectedElementId = some clone.id :=
  (duplicate_clone_spec ⟨[exElemC5], none⟩ "a" "b").1 exElemC5 (by decide) (by decide)

/-- A concrete heading element with markup-significant content, used by
the C6 counterexample. -/
def exElemC6 : Element :=
  { defaultContent := "d", id := "a", type := "heading", content := "a<b"
    style := {}, position := ⟨0, 0⟩, size := ⟨200, 50⟩, locked := false, visible := true
    zIndex := 0 }

/-- C6 counterexample: the markup emitted for a heading whose content is
"a<b" carries the content verbatim, not its HTML-escaped form, so the
exporter does not HTML-escape tag content. -/
theorem export_tag_content_not_escaped :
    elementMarkup exElemC6 = "<h1 class=\"element-a\">a<b</h1>" ∧
    elementMarkup exElemC6 ≠
      "<h1 class=\"element-a\">" ++ specHtmlEscape exElemC6.content ++ "</h1>" := by
  decide

/-- C6 amended: for every heading, text or button element, the markup
emitted by export carries the element's content field verbatim
(unescaped) as the tag's content. -/
theorem export_tag_content_verbatim (el : Element) :
    (el.type = "heading" →
      elementMarkup el = "<h1 class=\"element-" ++ el.id ++ "\">" ++ el.content ++ "</h1>") ∧
    (el.type = "text" →
      elementMarkup el = "<p class=\"element-" ++ el.id ++ "\">" ++ el.content ++ "</p>") ∧
    (el.type = "button" →
      elementMarkup el =
        "<button class=\"element-" ++ el.id ++ "\">" ++ el.content ++ "</button>") := by
  obtain ⟨dc, i2, t, c, s, p, sz, lk, v, z⟩ := el
  refine ⟨fun h => ?_, fun h => ?_, fun h => ?_⟩ <;>
  · dsimp only at h
    subst h
    rfl

/-- A concrete heading element used by the C6 witness. -/
def exElemC6w : Element :=
  { defaultContent := "d", id := "w", type := "heading", content := "hello"
    style := {}, position := ⟨0, 0⟩, size := ⟨200, 50⟩, locked := false, visible := true
    zIndex := 0 }

/-- C6 witness: a concrete heading element. -/
theorem export_tag_content_verbatim_witness :
    elementMarkup exElemC6w =
      "<h1 class=\"element-" ++ exElemC6w.id ++ "\">" ++ exElemC6w.content ++ "</h1>" :=
  (export_tag_content_verbatim exElemC6w).1 rfl

/-- A concrete divider with zIndex 1, stored first, used by the C7
counterexample. -/
def exElemC7a : Element :=
  { defaultContent := "", id := "a", type := "divider", content := ""
    style := {}, position := ⟨0, 0⟩, size := ⟨200, 50⟩, locked := false, visible := true
    zIndex := 1 }

/-- A concrete divider with zIndex 0, stored second, used by the C7
counterexample. -/
def exElemC7b : Element :=
  { defaultContent := "", id := "b", type := "divider", content := ""
    style := {}, position := ⟨0, 0⟩, size := ⟨200, 50⟩, locked := false, visible := true
    zIndex := 0 }

/-- C7 counterexample: on a document whose stored order is not ascending
in zIndex, export emits the rules and tags in stored order, which differs
from the ascending-zIndex order the claim requires. -/
theorem export_not_zindex_sorted :
    (sortByZ [exElemC7a, exElemC7b]).map (·.id) = ["b", "a"] ∧
    exportBody ⟨[exElemC7a, exElemC7b], none⟩ ≠
      String.join ((sortByZ [exElemC7a, exElemC7b]).map elementMarkup) ∧
    exportStyles ⟨[exElemC7a, exElemC7b], none⟩ ≠
      String.join ((sortByZ [exElemC7a, exElemC7b]).map cssRule) := by
  decide

/-- C7 amended: export emits exactly one style rule and one markup tag
per element, in the element list's stored (insertion) order rather than
re-sorted by zIndex, and its output is unchanged by flipping every
element's visible flag — all elements are exported regardless of
visibility. -/
theorem export_insertion_order_includes_all (doc : HistoryState) (b : Bool) :
    exportStyles doc = String.join (doc.elements.map cssRule) ∧
    exportBody doc = String.join (doc.elements.map elementMarkup) ∧
    exportCode ⟨doc.elements.map (fun el => { el with visible := b }),
      doc.selectedElementId⟩ = exportCode doc := by
  refine ⟨rfl, rfl, ?_⟩
  have hcss : ∀ el : Element, cssRule { el with visible := b } = cssRule el := fun _ => rfl
  have hmk : ∀ el : Element, elementMarkup { el with visible := b } = elementMarkup el :=
    fun _ => rfl
  simp only [exportCode, exportStyles, exportBody, List.map_map, Function.comp_def]
  rw [List.map_congr_left fun el _ => hcss el, List.map_congr_left fun el _ => hmk el]

/-- C8 counterexample: create with the unrecognized kind "bogus" is not
rejected — the document changes, gaining one element. -/
theorem create_invalid_kind_not_rejected :
    "bogus" ∉ recognizedKinds ∧
    createElement emptyDocument "bogus" "" ⟨0, 0⟩ "a" ≠ emptyDocument ∧
    (createElement emptyDocument "bogus" "" ⟨0, 0⟩ "a").elements.length = 1 := by
  decide

/-- C8 amended: create with a kind outside the six recognized variants is
not rejected and signals no failure — the element is appended anyway,
with the empty style record that getDefaultStyle yields for unknown
kinds, and becomes the selection. -/
theorem create_unrecognized_kind_appends (doc : HistoryState) (t dc : String) (pos : Pos)
    (newId : String) (h : t ∉ recognizedKinds) :
    getDefaultStyle t = {} ∧
    (createElement doc t dc pos newId).elements = doc.elements ++
      [{ defaultContent := dc, id := newId, type := t, content := dc, style := {}
         position := pos, size := ⟨200, 50⟩, locked := false, visible := true
         zIndex := (doc.elements.length : Int) }] ∧
    (createElement doc t dc pos newId).selectedElementId = some newId := by
  obtain ⟨h1, h2, h3, h4, h5, h6⟩ :
      t ≠ "heading" ∧ t ≠ "text" ∧ t ≠ "button" ∧ t ≠ "image" ∧ t ≠ "container" ∧
        t ≠ "divider" := by
    simpa [recognizedKinds] using h
  have hg : getDefaultStyle t = {} := by
    simp [getDefaultStyle, h1, h2, h3, h4, h5, h6]
  exact ⟨hg, by simp [createElement, hg], rfl⟩

/-- C8 witness: creating an element of kind "bogus" on the empty
document. -/
theorem create_unrecognized_kind_appends_witness :
    getDefaultStyle "bogus" = {} ∧
    (createElement emptyDocument "bogus" "x" ⟨1, 2⟩ "a").elements = [] ++
      [{ defaultContent := "x", id := "a", type := "bogus", content := "x", style := {}
         position := ⟨1, 2⟩, size := ⟨200, 50⟩, locked := false, visible := true
         zIndex := ((0 : Nat) : Int) }] ∧
    (createElement emptyDocument "bogus" "x" ⟨1, 2⟩ "a").selectedElementId = some "a" :=
  create_unrecognized_kind_appends emptyDocument "bogus" "x" ⟨1, 2⟩ "a" (by decide)

end DragDrop
